import Mathlib

/-!
Shallow embedding of the orchestration engine in `agent_runner.py`
(class `AgentRunner`) of the insurance-marketing-system repository.

Modelling conventions:
* Python dicts keyed by strings become association lists
  `List (String × _)`; `alookup` and `aupdate` mirror `d[k]` /
  `d[k] = v` on an existing key.
* The live agent instance inside `self.agents[key]` is opaque to the
  orchestrator; the outcome of `instance.run_once()` is supplied by an
  oracle `String → RunOutcome` (normal return value or raised
  exception message), and wall-clock timestamps by an oracle
  `String → Nat`.
* `time.sleep` has no observable state effect; mode controllers return
  the number of seconds they would sleep.
* Logger calls have no modelled effect; only `self.stats["errors"]`
  (the global error log) is state.
-/

/-- One entry of `self.agent_configs` (an agent descriptor).
The Python dict key `"class"` is spelled `cls` here. -/
structure AgentConfig where
  module : String
  cls : String
  name : String
  priority : Nat
  dependencies : List String
  enabled : Bool
deriving Repr, DecidableEq

/-- The per-agent `"stats"` record created in `_load_all_agents`. -/
structure StageStats where
  runs : Nat
  successes : Nat
  errors : Nat
  last_run : Option Nat
  last_result : Option String
deriving Repr, DecidableEq

/-- One entry of the global error log `self.stats["errors"]`. -/
structure ErrorEntry where
  time : Nat
  agent : String
  error : String
deriving Repr, DecidableEq

/-- One value of the `self.agents` map: the descriptor it was loaded
from and its stats record (the live instance is behavioural, not
state). -/
structure AgentEntry where
  config : AgentConfig
  stats : StageStats
deriving Repr, DecidableEq

/-- The orchestrator state: `self.agent_configs`, the run configuration,
`self.agents`, `self.threads` (worker generation counters standing for
thread objects), and the global stats `self.stats["total_cycles"]` /
`self.stats["errors"]`. -/
structure RunnerState where
  agent_configs : List AgentConfig
  mode : String
  global_interval : Nat
  pipeline_delay : Nat
  agents : List (String × AgentEntry)
  threads : List (String × Nat)
  total_cycles : Nat
  errors : List ErrorEntry
deriving Repr, DecidableEq

/-- Lookup in an association list, mirroring Python dict access. -/
def alookup {α : Type} : List (String × α) → String → Option α
  | [], _ => none
  | (k, v) :: rest, key => if k = key then some v else alookup rest key

/-- Replace the value stored under an existing key, mirroring Python
dict assignment on a present key. -/
def aupdate {α : Type} : List (String × α) → String → α → List (String × α)
  | [], _, _ => []
  | (k, v) :: rest, key, newv =>
      if k = key then (k, newv) :: rest else (k, v) :: aupdate rest key newv

/-- `AgentRunner._check_dependencies`: every identifier in
`config["dependencies"]` must be a key of `self.agents`. -/
def check_dependencies (agents : List (String × AgentEntry)) (config : AgentConfig) : Bool :=
  config.dependencies.all fun dep => (alookup agents dep).isSome

/-- Dependency check expressed against a plain key list; used to reason
about `check_dependencies` under state updates that keep the key set. -/
def deps_ok (keys : List String) (config : AgentConfig) : Bool :=
  config.dependencies.all fun dep => keys.contains dep

/-- Outcome of one `instance.run_once()` call: a returned value or a
raised exception message. -/
inductive RunOutcome where
  | ok (result : String)
  | exn (message : String)
deriving Repr, DecidableEq

/-- `AgentRunner._run_agent_once`: look the agent up, invoke it once,
and update its stats; an exception is caught, counted as an error and
appended to the global error log. Returns the success flag and the new
state. -/
def run_agent_once (st : RunnerState) (agent_key : String)
    (outcome : RunOutcome) (now : Nat) : Bool × RunnerState :=
  match alookup st.agents agent_key with
  | none => (false, st)
  | some entry =>
      match outcome with
      | RunOutcome.ok result =>
          let stats2 : StageStats :=
            { entry.stats with
                runs := entry.stats.runs + 1
                successes := entry.stats.successes + 1
                last_run := some now
                last_result := some result }
          (true, { st with agents := aupdate st.agents agent_key { entry with stats := stats2 } })
      | RunOutcome.exn msg =>
          let stats2 : StageStats :=
            { entry.stats with
                runs := entry.stats.runs + 1
                errors := entry.stats.errors + 1
                last_run := some now
                last_result := some ("错误: " ++ msg) }
          (false,
            { st with
                agents := aupdate st.agents agent_key { entry with stats := stats2 }
                errors := st.errors ++ [⟨now, entry.config.name, msg⟩] })

/-- The `sorted_configs` expression in `_run_pipeline_once`: the enabled
descriptors sorted by priority. Python's `sorted` is stable, which
insertion sort with a non-strict comparison realises. -/
def sorted_configs (configs : List AgentConfig) : List AgentConfig :=
  List.insertionSort (fun a b => a.priority ≤ b.priority) (configs.filter fun c => c.enabled)

/-- The stage loop of `_run_pipeline_once`: for each config in order,
skip it (recording failure) when its dependencies are unmet, otherwise
run it once and record the outcome. -/
def pipeline_go (ω : String → RunOutcome) (τ : String → Nat) :
    List AgentConfig → List (String × Bool) → RunnerState →
    List (String × Bool) × RunnerState
  | [], res, st => (res, st)
  | c :: rest, res, st =>
      if check_dependencies st.agents c then
        let r := run_agent_once st c.module (ω c.module) (τ c.module)
        pipeline_go ω τ rest (res ++ [(c.module, r.1)]) r.2
      else
        pipeline_go ω τ rest (res ++ [(c.module, false)]) st

/-- `AgentRunner._run_pipeline_once`: run the priority-sorted enabled
stages once, returning the per-stage results map and the new state. -/
def run_pipeline_once (st : RunnerState) (ω : String → RunOutcome) (τ : String → Nat) :
    List (String × Bool) × RunnerState :=
  pipeline_go ω τ (sorted_configs st.agent_configs) [] st

/-- Fresh stats record created for a newly loaded agent. -/
def init_stats : StageStats :=
  { runs := 0, successes := 0, errors := 0, last_run := none, last_result := none }

/-- `AgentRunner._load_all_agents`: for each enabled config attempt
construction (the oracle `loadOk` tells whether `_load_agent`
succeeds); successful loads are stored under the key
`config["module"]`; the flag is true iff every enabled config loaded.
Load failures are logged only, not appended to the error log. -/
def load_all_agents (configs : List AgentConfig) (loadOk : String → Bool) :
    List (String × AgentEntry) × Bool :=
  let enabled := configs.filter fun c => c.enabled
  ((enabled.filter fun c => loadOk c.module).map fun c => (c.module, ⟨c, init_stats⟩),
    enabled.all fun c => loadOk c.module)

/-- Outcome of `AgentRunner.run`. Modes `pipeline` and `run_forever`
enter loops (modelled separately per iteration); they and the
unknown-mode branch are collapsed into `other_mode` here. -/
inductive RunResult where
  | aborted_incomplete_load
  | aborted_no_agents
  | completed (results : List (String × Bool))
  | other_mode
deriving Repr, DecidableEq

/-- `AgentRunner.run`: load all agents; if not all loaded, abort; if
none loaded, abort; otherwise dispatch on the mode (single-pass mode
executes one pipeline cycle). -/
def run (st : RunnerState) (loadOk : String → Bool)
    (ω : String → RunOutcome) (τ : String → Nat) : RunResult × RunnerState :=
  let loaded := (load_all_agents st.agent_configs loadOk).1
  let allOk := (load_all_agents st.agent_configs loadOk).2
  if allOk then
    if loaded.isEmpty then
      (RunResult.aborted_no_agents, { st with agents := loaded })
    else if st.mode = "run_once" then
      let r := run_pipeline_once { st with agents := loaded } ω τ
      (RunResult.completed r.1, r.2)
    else
      (RunResult.other_mode, { st with agents := loaded })
  else
    (RunResult.aborted_incomplete_load, { st with agents := loaded })

/-- Where, relative to the statements of the `try` block of
`_run_mode_pipeline`, a framework-level exception surfaces during one
loop iteration: inside `_run_pipeline_once` before any stage ran
(e.g. while building the sorted sequence), or after the cycle returned
and `total_cycles` was already incremented (during the post-cycle
logging / the interval sleep), or not at all. -/
inductive CycleAttempt where
  | raise_before_stages (message : String)
  | finish (raise_after : Bool)
deriving Repr, DecidableEq

/-- One iteration of the `while` loop in `AgentRunner._run_mode_pipeline`:
on a normal cycle, increment `total_cycles` and sleep the configured
global interval; on an exception, the `except` branch sleeps the fixed
60-second fallback. Returns the new state and the seconds slept. -/
def run_mode_pipeline_iteration (st : RunnerState) (ω : String → RunOutcome)
    (τ : String → Nat) (attempt : CycleAttempt) : RunnerState × Nat :=
  match attempt with
  | CycleAttempt.raise_before_stages _ => (st, 60)
  | CycleAttempt.finish raise_after =>
      let r := run_pipeline_once st ω τ
      let st2 := { r.2 with total_cycles := r.2.total_cycles + 1 }
      (st2, if raise_after then 60 else st.global_interval)

/-- The lookup loop of `AgentRunner.restart_agent`: the first key of
`self.agents` whose config matches the given display name or module. -/
def find_agent_key : List (String × AgentEntry) → String → Option String
  | [], _ => none
  | (k, e) :: rest, n =>
      if e.config.name = n ∨ e.config.module = n then some k
      else find_agent_key rest n

/-- `self.threads[target_key] = thread` with a fresh thread object:
bump the generation counter under the key (insert it if absent). -/
def thread_update (threads : List (String × Nat)) (key : String) : List (String × Nat) :=
  match alookup threads key with
  | some g => aupdate threads key (g + 1)
  | none => threads ++ [(key, 1)]

/-- `AgentRunner.restart_agent`: only valid in `run_forever` mode; find
the stage by display name or module among the loaded agents; replace
its worker thread; the agent entry (instance and stats) is untouched. -/
def restart_agent (st : RunnerState) (agent_name : String) : Bool × RunnerState :=
  if st.mode = "run_forever" then
    match find_agent_key st.agents agent_name with
    | none => (false, st)
    | some key => (true, { st with threads := thread_update st.threads key })
  else
    (false, st)

/-- `AgentRunner.enable_agent`: set the enabled flag of the first config
matching the given display name or module; false when none matches. -/
def enable_agent : List AgentConfig → String → Bool × List AgentConfig
  | [], _ => (false, [])
  | c :: rest, n =>
      if c.name = n ∨ c.module = n then (true, { c with enabled := true } :: rest)
      else
        let r := enable_agent rest n
        (r.1, c :: r.2)

/-- `AgentRunner.disable_agent`: clear the enabled flag of the first
config matching the given display name or module; false when none
matches. -/
def disable_agent : List AgentConfig → String → Bool × List AgentConfig
  | [], _ => (false, [])
  | c :: rest, n =>
      if c.name = n ∨ c.module = n then (true, { c with enabled := false } :: rest)
      else
        let r := disable_agent rest n
        (r.1, c :: r.2)

/-- The static registry literal `self.agent_configs` from
`AgentRunner.__init__`. -/
def agent_configs : List AgentConfig :=
  [ ⟨"agents.hotspot_agent", "HotspotAgent", "热点抓取", 1, [], true⟩,
    ⟨"agents.risk_analyzer_agent", "RiskAnalyzerAgent", "风险分析", 2, ["hotspot_agent"], true⟩,
    ⟨"agents.material_collector_agent", "MaterialCollectorAgent", "素材收集", 3, ["risk_analyzer_agent"], true⟩,
    ⟨"agents.product_matcher_agent", "ProductMatcherAgent", "产品匹配", 4, ["risk_analyzer_agent"], true⟩,
    ⟨"agents.content_creator_agent", "ContentCreatorAgent", "内容创作", 5, ["material_collector_agent", "product_matcher_agent"], true⟩,
    ⟨"agents.editor_agent", "EditorAgent", "内容编辑", 6, ["content_creator_agent"], true⟩ ]

/-- Initial orchestrator state built by `AgentRunner.__init__` with the
given run mode (default env values: interval 300, pipeline delay 60). -/
def initial_state (mode : String) : RunnerState :=
  { agent_configs := agent_configs
    mode := mode
    global_interval := 300
    pipeline_delay := 60
    agents := []
    threads := []
    total_cycles := 0
    errors := [] }

/-- Load oracle for the six-stage scenario where stage 2 (the risk
analyzer) fails to construct and every other stage loads. -/
def demo_loadOk : String → Bool := fun m => !(m == "agents.risk_analyzer_agent")

/-- Run-outcome oracle where every invocation returns normally. -/
def demo_ω : String → RunOutcome := fun _ => RunOutcome.ok "ok"

/-- Timestamp oracle used by concrete evaluations. -/
def demo_τ : String → Nat := fun _ => 0

/-- Run-outcome oracle where every invocation raises. -/
def demo_ω_exn : String → RunOutcome := fun _ => RunOutcome.exn "boom"

/-- The first registry descriptor (the hotspot stage, no dependencies). -/
def hotspot_cfg : AgentConfig :=
  ⟨"agents.hotspot_agent", "HotspotAgent", "热点抓取", 1, [], true⟩

/-- The second registry descriptor (the risk analyzer stage). -/
def risk_cfg : AgentConfig :=
  ⟨"agents.risk_analyzer_agent", "RiskAnalyzerAgent", "风险分析", 2, ["hotspot_agent"], true⟩

/-- A loaded-agent entry for the hotspot stage with fresh stats. -/
def demo_entry : AgentEntry := ⟨hotspot_cfg, init_stats⟩

/-- A concrete state in concurrent-supervision mode with the hotspot
stage loaded, used to instantiate the general theorems. -/
def demo_state : RunnerState :=
  { agent_configs := agent_configs
    mode := "run_forever"
    global_interval := 300
    pipeline_delay := 60
    agents := [("agents.hotspot_agent", demo_entry)]
    threads := []
    total_cycles := 0
    errors := [] }

/-! Helper lemmas about association lists. -/

theorem aupdate_keys {α : Type} (l : List (String × α)) (k : String) (v : α) :
    (aupdate l k v).map Prod.fst = l.map Prod.fst := by
  induction l with
  | nil => rfl
  | cons hd tl ih =>
      obtain ⟨k2, v2⟩ := hd
      by_cases h : k2 = k <;> simp [aupdate, h, ih]

theorem alookup_aupdate_ne {α : Type} (l : List (String × α)) (k m : String) (v : α)
    (h : k ≠ m) : alookup (aupdate l k v) m = alookup l m := by
  induction l with
  | nil => rfl
  | cons hd tl ih =>
      obtain ⟨k2, v2⟩ := hd
      by_cases h2 : k2 = k
      · subst h2
        simp [aupdate, alookup, h]
      · simp [aupdate, h2, alookup]
        by_cases h3 : k2 = m <;> simp [h3, ih]

theorem alookup_aupdate_eq {α : Type} (l : List (String × α)) (k : String) (v : α)
    (h : (alookup l k).isSome = true) : alookup (aupdate l k v) k = some v := by
  induction l with
  | nil => simp [alookup] at h
  | cons hd tl ih =>
      obtain ⟨k2, v2⟩ := hd
      by_cases h2 : k2 = k
      · simp [aupdate, h2, alookup]
      · simp [alookup, h2] at h
        simp [aupdate, h2, alookup, ih h]

theorem alookup_of_mem_nodup {α : Type} (l : List (String × α)) (k : String) (v : α)
    (hnd : (l.map Prod.fst).Nodup) (hmem : (k, v) ∈ l) : alookup l k = some v := by
  induction l with
  | nil => cases hmem
  | cons hd tl ih =>
      obtain ⟨k2, v2⟩ := hd
      simp only [List.map_cons, List.nodup_cons] at hnd
      rcases List.mem_cons.mp hmem with heq | hmem2
      · cases heq
        simp [alookup]
      · have hk : k2 ≠ k := by
          intro hkk
          subst hkk
          exact hnd.1 (List.mem_map.mpr ⟨(k2, v), hmem2, rfl⟩)
        simp [alookup, hk]
        exact ih hnd.2 hmem2

theorem isSome_alookup {α : Type} (l : List (String × α)) (k : String) :
    (alookup l k).isSome = (l.map Prod.fst).contains k := by
  induction l with
  | nil => rfl
  | cons hd tl ih =>
      obtain ⟨k2, v2⟩ := hd
      by_cases h : k2 = k
      · subst h
        simp [alookup]
      · have h2 : ¬(k == k2) = true := by
          simp [beq_iff_eq]
          exact fun hk => h hk.symm
        simp [alookup, h, List.contains_cons, h2, ih]

theorem check_dependencies_eq (agents : List (String × AgentEntry)) (c : AgentConfig) :
    check_dependencies agents c = deps_ok (agents.map Prod.fst) c := by
  unfold check_dependencies deps_ok
  congr 1
  funext d
  exact isSome_alookup agents d

/-! Frame lemmas for `run_agent_once` and `pipeline_go`. -/

theorem run_agent_once_frame (st : RunnerState) (k : String) (o : RunOutcome) (t : Nat) :
    ((run_agent_once st k o t).2).agents.map Prod.fst = st.agents.map Prod.fst ∧
    ((run_agent_once st k o t).2).agent_configs = st.agent_configs ∧
    ((run_agent_once st k o t).2).total_cycles = st.total_cycles ∧
    ((run_agent_once st k o t).2).mode = st.mode ∧
    ((run_agent_once st k o t).2).global_interval = st.global_interval := by
  unfold run_agent_once
  cases alookup st.agents k with
  | none => simp
  | some entry => cases o <;> simp [aupdate_keys]

theorem run_agent_once_alookup_ne (st : RunnerState) (k m : String) (o : RunOutcome)
    (t : Nat) (h : k ≠ m) :
    alookup ((run_agent_once st k o t).2).agents m = alookup st.agents m := by
  unfold run_agent_once
  cases alookup st.agents k with
  | none => rfl
  | some entry => cases o <;> simp [alookup_aupdate_ne _ _ _ _ h]

theorem pipeline_go_frame (ω : String → RunOutcome) (τ : String → Nat)
    (cs : List AgentConfig) (res : List (String × Bool)) (st : RunnerState) :
    ((pipeline_go ω τ cs res st).2).agents.map Prod.fst = st.agents.map Prod.fst ∧
    ((pipeline_go ω τ cs res st).2).agent_configs = st.agent_configs ∧
    ((pipeline_go ω τ cs res st).2).total_cycles = st.total_cycles ∧
    ((pipeline_go ω τ cs res st).2).mode = st.mode ∧
    ((pipeline_go ω τ cs res st).2).global_interval = st.global_interval := by
  induction cs generalizing res st with
  | nil => simp [pipeline_go]
  | cons c rest ih =>
      by_cases h : check_dependencies st.agents c = true
      · have hr := run_agent_once_frame st c.module (ω c.module) (τ c.module)
        have hrec := ih (res ++ [(c.module, (run_agent_once st c.module (ω c.module) (τ c.module)).1)])
          (run_agent_once st c.module (ω c.module) (τ c.module)).2
        simp only [pipeline_go, h, if_true]
        exact ⟨hrec.1.trans hr.1, hrec.2.1.trans hr.2.1, hrec.2.2.1.trans hr.2.2.1,
          hrec.2.2.2.1.trans hr.2.2.2.1, hrec.2.2.2.2.trans hr.2.2.2.2⟩
      · simp only [pipeline_go, h]
        simpa using ih (res ++ [(c.module, false)]) st

theorem pipeline_go_results_modules (ω : String → RunOutcome) (τ : String → Nat)
    (cs : List AgentConfig) (res : List (String × Bool)) (st : RunnerState) :
    (pipeline_go ω τ cs res st).1.map Prod.fst =
      res.map Prod.fst ++ cs.map (fun c => c.module) := by
  induction cs generalizing res st with
  | nil => simp [pipeline_go]
  | cons c rest ih =>
      by_cases h : check_dependencies st.agents c = true <;>
        simp [pipeline_go, h, ih, List.append_assoc]

theorem pipeline_go_mem_mono (ω : String → RunOutcome) (τ : String → Nat)
    (cs : List AgentConfig) (res : List (String × Bool)) (st : RunnerState)
    (x : String × Bool) (hx : x ∈ res) : x ∈ (pipeline_go ω τ cs res st).1 := by
  induction cs generalizing res st with
  | nil => simpa [pipeline_go] using hx
  | cons c rest ih =>
      by_cases h : check_dependencies st.agents c = true <;>
        simp only [pipeline_go, h, if_true, if_false, Bool.false_eq_true] <;>
        exact ih _ _ (List.mem_append_left _ hx)

theorem pipeline_go_mem_false (ω : String → RunOutcome) (τ : String → Nat)
    (B : AgentConfig) :
    ∀ (cs : List AgentConfig) (res : List (String × Bool)) (st : RunnerState),
      B ∈ cs → deps_ok (st.agents.map Prod.fst) B = false →
      (B.module, false) ∈ (pipeline_go ω τ cs res st).1 := by
  intro cs
  induction cs with
  | nil => intro res st hB _; cases hB
  | cons c rest ih =>
      intro res st hB hdep
      by_cases h : check_dependencies st.agents c = true
      · rcases List.mem_cons.mp hB with heq | hB2
        · subst heq
          rw [check_dependencies_eq, hdep] at h
          cases h
        · simp only [pipeline_go, h, if_true]
          apply ih _ _ hB2
          rw [(run_agent_once_frame st c.module (ω c.module) (τ c.module)).1]
          exact hdep
      · simp only [pipeline_go, h]
        rcases List.mem_cons.mp hB with heq | hB2
        · subst heq
          exact pipeline_go_mem_mono ω τ rest _ st _
            (List.mem_append_right res (List.mem_singleton.mpr rfl))
        · exact ih _ _ hB2 hdep

theorem pipeline_go_alookup_frame (ω : String → RunOutcome) (τ : String → Nat)
    (m : String) :
    ∀ (cs : List AgentConfig) (res : List (String × Bool)) (st : RunnerState),
      (∀ c ∈ cs, c.module = m → deps_ok (st.agents.map Prod.fst) c = false) →
      alookup ((pipeline_go ω τ cs res st).2).agents m = alookup st.agents m := by
  intro cs
  induction cs with
  | nil => intro res st _; simp [pipeline_go]
  | cons c rest ih =>
      intro res st hskip
      by_cases h : check_dependencies st.agents c = true
      · have hcm : c.module ≠ m := by
          intro hcm
          have := hskip c (List.mem_cons_self c rest) hcm
          rw [check_dependencies_eq, this] at h
          cases h
        simp only [pipeline_go, h, if_true]
        rw [ih _ _ ?_, run_agent_once_alookup_ne st c.module m _ _ hcm]
        intro c2 hc2 hcm2
        rw [(run_agent_once_frame st c.module (ω c.module) (τ c.module)).1]
        exact hskip c2 (List.mem_cons_of_mem c hc2) hcm2
      · simp only [pipeline_go, h]
        exact ih _ _ fun c2 hc2 hcm2 => hskip c2 (List.mem_cons_of_mem c hc2) hcm2

/-! Order instances and stability of the priority sort. -/

instance : IsTotal AgentConfig (fun a b => a.priority ≤ b.priority) :=
  ⟨fun a b => Nat.le_total a.priority b.priority⟩

instance : IsTrans AgentConfig (fun a b => a.priority ≤ b.priority) :=
  ⟨fun _ _ _ h1 h2 => Nat.le_trans h1 h2⟩

theorem filter_orderedInsert (p : Nat) (a : AgentConfig) :
    ∀ l : List AgentConfig,
      (List.orderedInsert (fun x y => x.priority ≤ y.priority) a l).filter
          (fun c => c.priority == p) =
        if a.priority == p then a :: l.filter (fun c => c.priority == p)
        else l.filter (fun c => c.priority == p) := by
  intro l
  induction l with
  | nil =>
      cases hpb : (a.priority == p) <;>
        simp [List.orderedInsert, List.filter, hpb]
  | cons b t ih =>
      by_cases hab : a.priority ≤ b.priority
      · cases hpb : (a.priority == p) <;> cases hbb : (b.priority == p) <;>
          simp [List.orderedInsert, hab, List.filter, hpb, hbb]
      · have hba : b.priority < a.priority := Nat.lt_of_not_le hab
        cases hpb : (a.priority == p) with
        | false =>
            cases hbb : (b.priority == p) <;>
              simp [List.orderedInsert, hab, List.filter, hpb, hbb, ih]
        | true =>
            have hap : a.priority = p := beq_iff_eq.mp hpb
            have hbb : (b.priority == p) = false := by
              rw [beq_eq_false_iff_ne]
              intro hb
              exact Nat.ne_of_lt hba (hb.trans hap.symm)
            simp [List.orderedInsert, hab, List.filter, hpb, hbb, ih]

theorem filter_insertionSort (p : Nat) :
    ∀ l : List AgentConfig,
      (List.insertionSort (fun x y => x.priority ≤ y.priority) l).filter
          (fun c => c.priority == p) =
        l.filter (fun c => c.priority == p) := by
  intro l
  induction l with
  | nil => rfl
  | cons a t ih =>
      rw [List.insertionSort, filter_orderedInsert]
      cases hpb : (a.priority == p) <;> simp [List.filter, hpb, ih]

/-- Setting the enabled flag to its current value leaves the descriptor
unchanged. -/
theorem set_enabled_self (c : AgentConfig) (h : c.enabled = true) :
    { c with enabled := true } = c := by
  cases c
  simp only at h
  simp [h]

/-- Clearing the enabled flag of an already-disabled descriptor leaves
it unchanged. -/
theorem set_disabled_self (c : AgentConfig) (h : c.enabled = false) :
    { c with enabled := false } = c := by
  cases c
  simp only at h
  simp [h]

/-! Helper lemmas for `enable_agent` / `disable_agent`. -/

theorem enable_agent_not_found :
    ∀ (l : List AgentConfig) (n : String),
      (∀ c ∈ l, c.name ≠ n ∧ c.module ≠ n) → enable_agent l n = (false, l) := by
  intro l
  induction l with
  | nil => intro n _; rfl
  | cons c rest ih =>
      intro n h
      have hc := h c (List.mem_cons_self c rest)
      simp [enable_agent, hc.1, hc.2,
        ih n fun c2 hc2 => h c2 (List.mem_cons_of_mem c hc2)]

theorem disable_agent_not_found :
    ∀ (l : List AgentConfig) (n : String),
      (∀ c ∈ l, c.name ≠ n ∧ c.module ≠ n) → disable_agent l n = (false, l) := by
  intro l
  induction l with
  | nil => intro n _; rfl
  | cons c rest ih =>
      intro n h
      have hc := h c (List.mem_cons_self c rest)
      simp [disable_agent, hc.1, hc.2,
        ih n fun c2 hc2 => h c2 (List.mem_cons_of_mem c hc2)]

theorem enable_agent_found :
    ∀ (l : List AgentConfig) (n : String),
      (∃ c ∈ l, c.name = n ∨ c.module = n) → (enable_agent l n).1 = true := by
  intro l
  induction l with
  | nil => intro n h; simp at h
  | cons c rest ih =>
      intro n h
      by_cases hc : c.name = n ∨ c.module = n
      · simp [enable_agent, hc]
      · obtain ⟨c2, hc2, hm⟩ := h
        rcases List.mem_cons.mp hc2 with heq | hc3
        · subst heq; exact absurd hm hc
        · simp [enable_agent, hc, ih n ⟨c2, hc3, hm⟩]

theorem disable_agent_found :
    ∀ (l : List AgentConfig) (n : String),
      (∃ c ∈ l, c.name = n ∨ c.module = n) → (disable_agent l n).1 = true := by
  intro l
  induction l with
  | nil => intro n h; simp at h
  | cons c rest ih =>
      intro n h
      by_cases hc : c.name = n ∨ c.module = n
      · simp [disable_agent, hc]
      · obtain ⟨c2, hc2, hm⟩ := h
        rcases List.mem_cons.mp hc2 with heq | hc3
        · subst heq; exact absurd hm hc
        · simp [disable_agent, hc, ih n ⟨c2, hc3, hm⟩]

theorem enable_agent_already :
    ∀ (l : List AgentConfig) (n : String),
      (∀ c ∈ l, (c.name = n ∨ c.module = n) → c.enabled = true) →
      (enable_agent l n).2 = l := by
  intro l
  induction l with
  | nil => intro n _; rfl
  | cons c rest ih =>
      intro n h
      by_cases hc : c.name = n ∨ c.module = n
      · simp [enable_agent, hc,
          set_enabled_self c (h c (List.mem_cons_self c rest) hc)]
      · simp [enable_agent, hc,
          ih n fun c2 hc2 => h c2 (List.mem_cons_of_mem c hc2)]

theorem disable_agent_already :
    ∀ (l : List AgentConfig) (n : String),
      (∀ c ∈ l, (c.name = n ∨ c.module = n) → c.enabled = false) →
      (disable_agent l n).2 = l := by
  intro l
  induction l with
  | nil => intro n _; rfl
  | cons c rest ih =>
      intro n h
      by_cases hc : c.name = n ∨ c.module = n
      · simp [disable_agent, hc,
          set_disabled_self c (h c (List.mem_cons_self c rest) hc)]
      · simp [disable_agent, hc,
          ih n fun c2 hc2 => h c2 (List.mem_cons_of_mem c hc2)]

theorem enable_agent_twice :
    ∀ (l : List AgentConfig) (n : String),
      enable_agent (enable_agent l n).2 n = enable_agent l n := by
  intro l
  induction l with
  | nil => intro n; rfl
  | cons c rest ih =>
      intro n
      by_cases hc : c.name = n ∨ c.module = n
      · cases c
        simp_all [enable_agent]
      · simp [enable_agent, hc, ih n]

theorem disable_agent_twice :
    ∀ (l : List AgentConfig) (n : String),
      disable_agent (disable_agent l n).2 n = disable_agent l n := by
  intro l
  induction l with
  | nil => intro n; rfl
  | cons c rest ih =>
      intro n
      by_cases hc : c.name = n ∨ c.module = n
      · cases c
        simp_all [disable_agent]
      · simp [disable_agent, hc, ih n]

theorem enable_agent_first_match :
    ∀ (pre : List AgentConfig) (c : AgentConfig) (post : List AgentConfig) (n : String),
      (∀ c2 ∈ pre, c2.name ≠ n ∧ c2.module ≠ n) →
      (c.name = n ∨ c.module = n) →
      enable_agent (pre ++ c :: post) n = (true, pre ++ { c with enabled := true } :: post) := by
  intro pre
  induction pre with
  | nil =>
      intro c post n _ hc
      simp [enable_agent, hc]
  | cons p rest ih =>
      intro c post n h hc
      have hp := h p (List.mem_cons_self p rest)
      simp [enable_agent, hp.1, hp.2,
        ih c post n (fun c2 hc2 => h c2 (List.mem_cons_of_mem p hc2)) hc]

theorem disable_agent_first_match :
    ∀ (pre : List AgentConfig) (c : AgentConfig) (post : List AgentConfig) (n : String),
      (∀ c2 ∈ pre, c2.name ≠ n ∧ c2.module ≠ n) →
      (c.name = n ∨ c.module = n) →
      disable_agent (pre ++ c :: post) n = (true, pre ++ { c with enabled := false } :: post) := by
  intro pre
  induction pre with
  | nil =>
      intro c post n _ hc
      simp [disable_agent, hc]
  | cons p rest ih =>
      intro c post n h hc
      have hp := h p (List.mem_cons_self p rest)
      simp [disable_agent, hp.1, hp.2,
        ih c post n (fun c2 hc2 => h c2 (List.mem_cons_of_mem p hc2)) hc]

/-- C1: the claim asserts that every dependency identifier of an
enabled descriptor equals the key (`config["module"]`) under which some
agent is stored, so that after a fully successful load
`_check_dependencies` returns true for every enabled descriptor. The
code refutes this: all six descriptors are enabled and all load, yet
the only descriptor passing `_check_dependencies` is the
dependency-free hotspot stage, because every dependency string
(e.g. `"hotspot_agent"`) lacks the `agents.` package prefix of the map
keys (e.g. `"agents.hotspot_agent"`). -/
theorem registry_dependency_identifiers_mismatch :
    (load_all_agents agent_configs (fun _ => true)).2 = true ∧
    (agent_configs.all fun c => c.enabled) = true ∧
    ((agent_configs.filter fun c =>
        check_dependencies (load_all_agents agent_configs (fun _ => true)).1 c).map
      fun c => c.module) = ["agents.hotspot_agent"] := by
  refine ⟨rfl, rfl, ?_⟩
  rfl

/-- C10: a stage skipped because `_check_dependencies` returned false
mutates nothing: the cycle continues on the very same state (so the
skipped stage's stats and the global error log are untouched), and the
only record of the failure is the `false` appended to the cycle's
results map. -/
theorem skip_unmet_dependency_no_state_change (ω : String → RunOutcome)
    (τ : String → Nat) (c : AgentConfig) (rest : List AgentConfig)
    (res : List (String × Bool)) (st : RunnerState)
    (hskip : check_dependencies st.agents c = false) :
    pipeline_go ω τ (c :: rest) res st =
      pipeline_go ω τ rest (res ++ [(c.module, false)]) st := by
  simp [pipeline_go, hskip]

/-- Witness for C10 at a concrete input: in the empty-agents initial
state the risk analyzer's dependency is unmet and its cycle step only
records the failure. -/
theorem skip_unmet_dependency_no_state_change_witness :
    pipeline_go demo_ω demo_τ [risk_cfg] [] (initial_state "run_once") =
      pipeline_go demo_ω demo_τ [] ([] ++ [(risk_cfg.module, false)])
        (initial_state "run_once") :=
  skip_unmet_dependency_no_state_change demo_ω demo_τ risk_cfg [] []
    (initial_state "run_once") (by decide)

/-- C7: one iteration of the timed-repeating mode controller. On a
framework-level error the `except` branch sleeps the fixed 60-second
fallback regardless of the configured global interval; `total_cycles`
does not increment when the error surfaced before any stage ran, and
does increment when the cycle finished all stages before the error
surfaced; a normal iteration sleeps the configured interval. -/
theorem pipeline_mode_fallback_delay (st : RunnerState) (ω : String → RunOutcome)
    (τ : String → Nat) (msg : String) :
    (run_mode_pipeline_iteration st ω τ (CycleAttempt.raise_before_stages msg)).2 = 60 ∧
    ((run_mode_pipeline_iteration st ω τ (CycleAttempt.raise_before_stages msg)).1).total_cycles
      = st.total_cycles ∧
    (run_mode_pipeline_iteration st ω τ (CycleAttempt.finish true)).2 = 60 ∧
    ((run_mode_pipeline_iteration st ω τ (CycleAttempt.finish true)).1).total_cycles
      = st.total_cycles + 1 ∧
    (run_mode_pipeline_iteration st ω τ (CycleAttempt.finish false)).2 = st.global_interval := by
  refine ⟨rfl, rfl, rfl, ?_, rfl⟩
  simp only [run_mode_pipeline_iteration, run_pipeline_once]
  rw [(pipeline_go_frame ω τ (sorted_configs st.agent_configs) [] st).2.2.1]

/-- C8: `restart_agent` returns false without changing anything when
the mode is not `run_forever` or when the name matches no loaded
stage's display name or module; otherwise it succeeds, replaces only
the worker thread under the found key, and leaves the agent entries
(hence all accumulated stats) unchanged. -/
theorem restart_agent_spec (st : RunnerState) (n : String) :
    (st.mode ≠ "run_forever" → restart_agent st n = (false, st)) ∧
    (find_agent_key st.agents n = none → restart_agent st n = (false, st)) ∧
    (∀ k, st.mode = "run_forever" → find_agent_key st.agents n = some k →
      (restart_agent st n).1 = true ∧
      ((restart_agent st n).2).agents = st.agents ∧
      ((restart_agent st n).2).threads = thread_update st.threads k ∧
      ((restart_agent st n).2).agent_configs = st.agent_configs ∧
      ((restart_agent st n).2).total_cycles = st.total_cycles ∧
      ((restart_agent st n).2).errors = st.errors) := by
  refine ⟨?_, ?_, ?_⟩
  · intro h
    simp [restart_agent, h]
  · intro h
    unfold restart_agent
    by_cases hm : st.mode = "run_forever" <;> simp [hm, h]
  · intro k hm hk
    simp [restart_agent, hm, hk]

/-- Witness for C8 at a concrete input: restarting the loaded hotspot
stage by display name in supervision mode succeeds and keeps its
entry. -/
theorem restart_agent_spec_witness :
    (restart_agent demo_state "热点抓取").1 = true ∧
    ((restart_agent demo_state "热点抓取").2).agents = demo_state.agents ∧
    ((restart_agent demo_state "热点抓取").2).threads =
      thread_update demo_state.threads "agents.hotspot_agent" ∧
    ((restart_agent demo_state "热点抓取").2).agent_configs = demo_state.agent_configs ∧
    ((restart_agent demo_state "热点抓取").2).total_cycles = demo_state.total_cycles ∧
    ((restart_agent demo_state "热点抓取").2).errors = demo_state.errors :=
  (restart_agent_spec demo_state "热点抓取").2.2 "agents.hotspot_agent" rfl (by decide)

/-- C9: `enable_agent`/`disable_agent` return false and change nothing
when no descriptor matches the name; when one matches they return true
and set exactly the first matching descriptor's enabled flag to the
requested value, leaving every other descriptor (and every other field)
unchanged; and both are idempotent: re-applying the operation (or
applying it when every matching descriptor already carries the
requested flag) changes nothing. -/
theorem enable_disable_agent_spec (configs : List AgentConfig) (n : String) :
    ((∀ c ∈ configs, c.name ≠ n ∧ c.module ≠ n) →
      enable_agent configs n = (false, configs) ∧
      disable_agent configs n = (false, configs)) ∧
    ((∃ c ∈ configs, c.name = n ∨ c.module = n) →
      (enable_agent configs n).1 = true ∧ (disable_agent configs n).1 = true) ∧
    (∀ (pre : List AgentConfig) (c : AgentConfig) (post : List AgentConfig),
      configs = pre ++ c :: post →
      (∀ c2 ∈ pre, c2.name ≠ n ∧ c2.module ≠ n) →
      (c.name = n ∨ c.module = n) →
      enable_agent configs n = (true, pre ++ { c with enabled := true } :: post)) ∧
    (∀ (pre : List AgentConfig) (c : AgentConfig) (post : List AgentConfig),
      configs = pre ++ c :: post →
      (∀ c2 ∈ pre, c2.name ≠ n ∧ c2.module ≠ n) →
      (c.name = n ∨ c.module = n) →
      disable_agent configs n = (true, pre ++ { c with enabled := false } :: post)) ∧
    ((∀ c ∈ configs, (c.name = n ∨ c.module = n) → c.enabled = true) →
      (enable_agent configs n).2 = configs) ∧
    ((∀ c ∈ configs, (c.name = n ∨ c.module = n) → c.enabled = false) →
      (disable_agent configs n).2 = configs) ∧
    enable_agent (enable_agent configs n).2 n = enable_agent configs n ∧
    disable_agent (disable_agent configs n).2 n = disable_agent configs n :=
  ⟨fun h => ⟨enable_agent_not_found configs n h, disable_agent_not_found configs n h⟩,
   fun h => ⟨enable_agent_found configs n h, disable_agent_found configs n h⟩,
   fun pre c post heq hpre hc => by
     rw [heq]
     exact enable_agent_first_match pre c post n hpre hc,
   fun pre c post heq hpre hc => by
     rw [heq]
     exact disable_agent_first_match pre c post n hpre hc,
   enable_agent_already configs n,
   disable_agent_already configs n,
   enable_agent_twice configs n,
   disable_agent_twice configs n⟩

/-- Witness for C9 at a concrete input: the editor stage (the sixth,
enabled descriptor) matches by display name; enabling reports success,
and disabling returns true and yields the registry with exactly that
descriptor's flag cleared. -/
theorem enable_disable_agent_spec_witness :
    (enable_agent agent_configs "内容编辑").1 = true ∧
    disable_agent agent_configs "内容编辑" =
      (true, agent_configs.take 5 ++
        [⟨"agents.editor_agent", "EditorAgent", "内容编辑", 6,
          ["content_creator_agent"], false⟩]) :=
  ⟨((enable_disable_agent_spec agent_configs "内容编辑").2.1 (by decide)).1,
   (enable_disable_agent_spec agent_configs "内容编辑").2.2.2.1
     (agent_configs.take 5)
     ⟨"agents.editor_agent", "EditorAgent", "内容编辑", 6, ["content_creator_agent"], true⟩
     [] (by decide) (by decide) (by decide)⟩

/-- C3: per-stage stats bookkeeping of `_run_agent_once`. An invocation
of an unknown key changes nothing; an invocation of a loaded stage
increments `runs` by exactly one, exactly one of `successes` or
`errors` by exactly one, and therefore preserves the invariant
`successes + errors == runs`. -/
theorem run_agent_once_stats_invariant (st : RunnerState) (k : String)
    (o : RunOutcome) (t : Nat) :
    (alookup st.agents k = none → run_agent_once st k o t = (false, st)) ∧
    (∀ e, alookup st.agents k = some e →
      ∃ e2, alookup ((run_agent_once st k o t).2).agents k = some e2 ∧
        e2.stats.runs = e.stats.runs + 1 ∧
        ((e2.stats.successes = e.stats.successes + 1 ∧ e2.stats.errors = e.stats.errors) ∨
         (e2.stats.errors = e.stats.errors + 1 ∧ e2.stats.successes = e.stats.successes)) ∧
        (e.stats.successes + e.stats.errors = e.stats.runs →
          e2.stats.successes + e2.stats.errors = e2.stats.runs)) := by
  constructor
  · intro h
    simp only [run_agent_once, h]
  · intro e he
    cases o with
    | ok result =>
        refine ⟨⟨e.config,
          ⟨e.stats.runs + 1, e.stats.successes + 1, e.stats.errors, some t, some result⟩⟩,
          ?_, rfl, Or.inl ⟨rfl, rfl⟩, ?_⟩
        · simp only [run_agent_once, he]
          exact alookup_aupdate_eq st.agents k _ (by rw [he]; rfl)
        · intro h
          dsimp only
          omega
    | exn msg =>
        refine ⟨⟨e.config,
          ⟨e.stats.runs + 1, e.stats.successes, e.stats.errors + 1, some t,
            some ("错误: " ++ msg)⟩⟩,
          ?_, rfl, Or.inr ⟨rfl, rfl⟩, ?_⟩
        · simp only [run_agent_once, he]
          exact alookup_aupdate_eq st.agents k _ (by rw [he]; rfl)
        · intro h
          dsimp only
          omega

/-- Witness for C3 at a concrete input: running the loaded hotspot
stage once successfully. -/
theorem run_agent_once_stats_invariant_witness :
    ∃ e2, alookup ((run_agent_once demo_state "agents.hotspot_agent"
        (RunOutcome.ok "r") 5).2).agents "agents.hotspot_agent" = some e2 ∧
      e2.stats.runs = demo_entry.stats.runs + 1 ∧
      ((e2.stats.successes = demo_entry.stats.successes + 1 ∧
          e2.stats.errors = demo_entry.stats.errors) ∨
       (e2.stats.errors = demo_entry.stats.errors + 1 ∧
          e2.stats.successes = demo_entry.stats.successes)) ∧
      (demo_entry.stats.successes + demo_entry.stats.errors = demo_entry.stats.runs →
        e2.stats.successes + e2.stats.errors = e2.stats.runs) :=
  (run_agent_once_stats_invariant demo_state "agents.hotspot_agent"
    (RunOutcome.ok "r") 5).2 demo_entry (by decide)

/-- C4: a stage whose `run_once` raises never lets the exception
propagate: `_run_agent_once` returns false, increments the stage's
error and run counters, appends a timestamped entry naming the stage to
the global error log, and the cycle loop then continues with exactly
the remaining stages. -/
theorem stage_exception_contained (st : RunnerState) (ω : String → RunOutcome)
    (τ : String → Nat) (c : AgentConfig) (rest : List AgentConfig)
    (res : List (String × Bool)) (e : AgentEntry) (msg : String)
    (he : alookup st.agents c.module = some e)
    (hdeps : check_dependencies st.agents c = true)
    (hω : ω c.module = RunOutcome.exn msg) :
    (run_agent_once st c.module (ω c.module) (τ c.module)).1 = false ∧
    ((run_agent_once st c.module (ω c.module) (τ c.module)).2).errors =
      st.errors ++ [⟨τ c.module, e.config.name, msg⟩] ∧
    (∃ e2, alookup ((run_agent_once st c.module (ω c.module) (τ c.module)).2).agents
        c.module = some e2 ∧
      e2.stats.errors = e.stats.errors + 1 ∧ e2.stats.runs = e.stats.runs + 1) ∧
    pipeline_go ω τ (c :: rest) res st =
      pipeline_go ω τ rest (res ++ [(c.module, false)])
        (run_agent_once st c.module (ω c.module) (τ c.module)).2 := by
  rw [hω]
  have hfalse : (run_agent_once st c.module (RunOutcome.exn msg) (τ c.module)).1 = false := by
    simp only [run_agent_once, he]
  refine ⟨hfalse, ?_, ?_, ?_⟩
  · simp only [run_agent_once, he]
  · refine ⟨⟨e.config,
      ⟨e.stats.runs + 1, e.stats.successes, e.stats.errors + 1, some (τ c.module),
        some ("错误: " ++ msg)⟩⟩, ?_, rfl, rfl⟩
    simp only [run_agent_once, he]
    exact alookup_aupdate_eq st.agents c.module _ (by rw [he]; rfl)
  · simp only [pipeline_go, hdeps, if_true, hω, hfalse]

/-- Witness for C4 at a concrete input: the loaded hotspot stage (no
dependencies) raising an exception. -/
theorem stage_exception_contained_witness :
    (run_agent_once demo_state hotspot_cfg.module (demo_ω_exn hotspot_cfg.module)
        (demo_τ hotspot_cfg.module)).1 = false ∧
    ((run_agent_once demo_state hotspot_cfg.module (demo_ω_exn hotspot_cfg.module)
        (demo_τ hotspot_cfg.module)).2).errors =
      demo_state.errors ++
        [⟨demo_τ hotspot_cfg.module, demo_entry.config.name, "boom"⟩] ∧
    (∃ e2, alookup ((run_agent_once demo_state hotspot_cfg.module
        (demo_ω_exn hotspot_cfg.module) (demo_τ hotspot_cfg.module)).2).agents
        hotspot_cfg.module = some e2 ∧
      e2.stats.errors = demo_entry.stats.errors + 1 ∧
      e2.stats.runs = demo_entry.stats.runs + 1) ∧
    pipeline_go demo_ω_exn demo_τ [hotspot_cfg, risk_cfg] [] demo_state =
      pipeline_go demo_ω_exn demo_τ [risk_cfg] ([] ++ [(hotspot_cfg.module, false)])
        (run_agent_once demo_state hotspot_cfg.module (demo_ω_exn hotspot_cfg.module)
          (demo_τ hotspot_cfg.module)).2 :=
  stage_exception_contained demo_state demo_ω_exn demo_τ hotspot_cfg [risk_cfg] []
    demo_entry "boom" (by decide) (by decide) (by decide)

/-- C5: the execution sequence built by a cycle run contains exactly
the enabled descriptors, in ascending priority order, with equal
priorities kept in registration order (stability: the subsequence of
any fixed priority equals its subsequence of the registration list);
the cycle's results map lists exactly those stages in that order. -/
theorem resolve_priority_order (l : List AgentConfig) :
    (sorted_configs l).Perm (l.filter fun c => c.enabled) ∧
    List.Pairwise (fun a b => a.priority ≤ b.priority) (sorted_configs l) ∧
    (∀ p : Nat, (sorted_configs l).filter (fun c => c.priority == p) =
      (l.filter fun c => c.enabled).filter (fun c => c.priority == p)) ∧
    (∀ (st : RunnerState) (ω : String → RunOutcome) (τ : String → Nat),
      (run_pipeline_once st ω τ).1.map Prod.fst =
        (sorted_configs st.agent_configs).map fun c => c.module) := by
  refine ⟨List.perm_insertionSort _ _, List.sorted_insertionSort _ _,
    fun p => filter_insertionSort p _, fun st ω τ => ?_⟩
  simpa using pipeline_go_results_modules ω τ (sorted_configs st.agent_configs) [] st

/-- C2: an enabled stage with a dependency identifier that is not a key
of the loaded-agents map is recorded as failed for the cycle, its entry
(hence its `run_once`) is never touched, and dependency satisfaction is
exactly membership of every dependency identifier among the loaded
keys. The no-duplicate-modules hypothesis reflects that the results
dict is keyed by module. -/
theorem dependency_unmet_stage_skipped (st : RunnerState) (ω : String → RunOutcome)
    (τ : String → Nat) (B : AgentConfig) (d : String)
    (hB : B ∈ st.agent_configs) (hen : B.enabled = true)
    (hnodup : ((st.agent_configs.filter fun c => c.enabled).map fun c => c.module).Nodup)
    (hd : d ∈ B.dependencies) (hdn : alookup st.agents d = none) :
    alookup (run_pipeline_once st ω τ).1 B.module = some false ∧
    alookup ((run_pipeline_once st ω τ).2).agents B.module = alookup st.agents B.module ∧
    (∀ (agents : List (String × AgentEntry)) (c : AgentConfig),
      check_dependencies agents c = true ↔
        ∀ d2 ∈ c.dependencies, (alookup agents d2).isSome = true) := by
  have hBf : B ∈ st.agent_configs.filter fun c => c.enabled :=
    List.mem_filter.mpr ⟨hB, hen⟩
  have hBs : B ∈ sorted_configs st.agent_configs := by
    unfold sorted_configs
    exact (List.mem_insertionSort _).mpr hBf
  have hcont : (st.agents.map Prod.fst).contains d = false := by
    rw [← isSome_alookup, hdn]
    rfl
  have hdep : deps_ok (st.agents.map Prod.fst) B = false := by
    cases hall : deps_ok (st.agents.map Prod.fst) B with
    | false => rfl
    | true =>
        unfold deps_ok at hall
        have := List.all_eq_true.mp hall d hd
        rw [hcont] at this
        exact absurd this (by decide)
  have hreskeys : (run_pipeline_once st ω τ).1.map Prod.fst =
      (sorted_configs st.agent_configs).map fun c => c.module := by
    simpa using pipeline_go_results_modules ω τ (sorted_configs st.agent_configs) [] st
  have hsortnd : ((sorted_configs st.agent_configs).map fun c => c.module).Nodup := by
    have hperm : (sorted_configs st.agent_configs).Perm
        (st.agent_configs.filter fun c => c.enabled) := List.perm_insertionSort _ _
    exact ((hperm.map fun c => c.module).nodup_iff).mpr hnodup
  refine ⟨?_, ?_, ?_⟩
  · exact alookup_of_mem_nodup _ _ _ (by rw [hreskeys]; exact hsortnd)
      (pipeline_go_mem_false ω τ B (sorted_configs st.agent_configs) [] st hBs hdep)
  · unfold run_pipeline_once
    apply pipeline_go_alookup_frame
    intro c hc hcm
    have hcf : c ∈ st.agent_configs.filter fun x => x.enabled := by
      unfold sorted_configs at hc
      exact (List.mem_insertionSort _).mp hc
    have hcB : c = B := List.inj_on_of_nodup_map hnodup hcf hBf hcm
    rw [hcB]
    exact hdep
  · intro agents c
    simp [check_dependencies, List.all_eq_true]

/-- Witness for C2 at a concrete input: in the real registry with only
the hotspot stage loaded, the risk analyzer's dependency string is not
a key of the map, so its cycle entry is false and its (absent) entry is
untouched. -/
theorem dependency_unmet_stage_skipped_witness :
    alookup (run_pipeline_once demo_state demo_ω demo_τ).1 risk_cfg.module = some false ∧
    alookup ((run_pipeline_once demo_state demo_ω demo_τ).2).agents risk_cfg.module =
      alookup demo_state.agents risk_cfg.module ∧
    (∀ (agents : List (String × AgentEntry)) (c : AgentConfig),
      check_dependencies agents c = true ↔
        ∀ d2 ∈ c.dependencies, (alookup agents d2).isSome = true) :=
  dependency_unmet_stage_skipped demo_state demo_ω demo_τ risk_cfg "hotspot_agent"
    (by decide) (by decide) (by decide) (by decide) (by decide)

/-- C6 counterexample: with the six-stage registry and stage 2 (the
risk analyzer) failing to construct, a single-pass `run` does not
execute any cycle: it aborts at startup, stage 1 is never invoked (its
stats stay zero-initialized), and the global error log stays empty
rather than containing a load-failure entry — contrary to the claim
that stage 1 succeeds, the cycle completes and the log holds one
entry. -/
theorem stage_two_load_failure_counterexample :
    (run (initial_state "run_once") demo_loadOk demo_ω demo_τ).1 =
      RunResult.aborted_incomplete_load ∧
    ((run (initial_state "run_once") demo_loadOk demo_ω demo_τ).2).total_cycles = 0 ∧
    ((run (initial_state "run_once") demo_loadOk demo_ω demo_τ).2).errors = [] ∧
    alookup ((run (initial_state "run_once") demo_loadOk demo_ω demo_τ).2).agents
      "agents.hotspot_agent" = some ⟨hotspot_cfg, init_stats⟩ :=
  ⟨rfl, rfl, rfl, rfl⟩

/-- C6 (amended): when any enabled stage fails to load, `run` aborts
at startup with an incomplete-load result before executing any cycle:
the cycle counter and the global error log are unchanged (load failures
go to the logger only, not to the error log) and every loaded stage
still carries its zero-initialized stats. -/
theorem single_load_failure_aborts_startup (st : RunnerState) (loadOk : String → Bool)
    (ω : String → RunOutcome) (τ : String → Nat) (c : AgentConfig)
    (hc : c ∈ st.agent_configs) (hen : c.enabled = true)
    (hfail : loadOk c.module = false) :
    (run st loadOk ω τ).1 = RunResult.aborted_incomplete_load ∧
    ((run st loadOk ω τ).2).total_cycles = st.total_cycles ∧
    ((run st loadOk ω τ).2).errors = st.errors ∧
    (∀ kv ∈ ((run st loadOk ω τ).2).agents, kv.2.stats = init_stats) := by
  have hall : ((st.agent_configs.filter fun x => x.enabled).all
      fun x => loadOk x.module) = false := by
    cases hall2 : (st.agent_configs.filter fun x => x.enabled).all
        fun x => loadOk x.module with
    | false => rfl
    | true =>
        have := List.all_eq_true.mp hall2 c (List.mem_filter.mpr ⟨hc, hen⟩)
        simp [hfail] at this
  have hflag : (load_all_agents st.agent_configs loadOk).2 = false := hall
  refine ⟨by simp [run, hflag], by simp [run, hflag], by simp [run, hflag], ?_⟩
  intro kv hkv
  have hagents : ((run st loadOk ω τ).2).agents =
      (load_all_agents st.agent_configs loadOk).1 := by
    simp [run, hflag]
  rw [hagents] at hkv
  simp only [load_all_agents] at hkv
  obtain ⟨c2, _, rfl⟩ := List.mem_map.mp hkv
  rfl

/-- Witness for the amended C6 at the six-stage registry with stage 2
failing to load. -/
theorem single_load_failure_aborts_startup_witness :
    (run (initial_state "run_once") demo_loadOk demo_ω demo_τ).1 =
      RunResult.aborted_incomplete_load ∧
    ((run (initial_state "run_once") demo_loadOk demo_ω demo_τ).2).total_cycles =
      (initial_state "run_once").total_cycles ∧
    ((run (initial_state "run_once") demo_loadOk demo_ω demo_τ).2).errors =
      (initial_state "run_once").errors ∧
    (∀ kv ∈ ((run (initial_state "run_once") demo_loadOk demo_ω demo_τ).2).agents,
      kv.2.stats = init_stats) :=
  single_load_failure_aborts_startup (initial_state "run_once") demo_loadOk demo_ω
    demo_τ risk_cfg (by decide) (by decide) (by decide)
